import Mathlib

/-!
Verification development for the version-discovery-and-extraction pipeline of
the `lifter` repository (`src/lib.rs`).  The Rust code is shallowly embedded:
pure decision logic is translated into executable Lean functions, effectful
steps (filesystem, HTTP, ini store) become explicit state passing or effect
traces, and the third-party crates the code calls (`regex`, `jsonpath_rust`,
`strfmt`, the `url` resolver, archive decoders) appear as function parameters,
since their internals are not part of this repository.
-/

namespace Lifter

/-- Outcome of running a Rust function: a returned `Ok` value, a returned
`Err` (as produced by the `?` operator or an explicit `Err`), or a
process-aborting panic (from `unwrap`, `expect`, or out-of-bounds indexing).
The distinction between `error` and `panicked` matters: only `error` values
propagate to the caller as `anyhow::Result` failures. -/
inductive ROutcome (α : Type) where
  | ok (a : α)
  | error (msg : String)
  | panicked (msg : String)
deriving DecidableEq, Repr

/-- The per-section configuration struct `Config` from `src/lib.rs:17-38`,
with the same fields in the same order. -/
structure Config where
  method : String
  template : String
  version : Option String
  page_url : String
  anchor_tag : String
  anchor_text : String
  version_tag : Option String
  target_filename_to_extract_from_archive : Option String
  desired_filename : Option String
deriving DecidableEq, Repr

/-- Mirrors `Config::new` (src/lib.rs:41-45): all fields default
(empty strings, `None` options). -/
def Config.new : Config :=
  ⟨ "", "", none, "", "", "", none, none, none⟩

/-- The `Hit` struct from `src/lib.rs:48-52`: a discovered
(version, download URL) pair. -/
structure Hit where
  version : String
  download_url : String
deriving DecidableEq, Repr

/-- Lexicographic strictly-less-than on character lists, compared by code
point.  Byte-wise UTF-8 comparison (what Rust's `String` ordering does)
coincides with code-point order, so this models Rust `<` on strings. -/
def listCharLt : List Char → List Char → Bool
  | [], [] => false
  | [], _ :: _ => true
  | _ :: _, [] => false
  | a :: as, b :: bs =>
    if a.toNat < b.toNat then true
    else if b.toNat < a.toNat then false
    else listCharLt as bs

/-- Lexicographic less-or-equal on character lists, the order Rust uses for
`&hit.version <= existing_version` in `process` (src/lib.rs:261). -/
def listCharLe : List Char → List Char → Bool
  | [], _ => true
  | _ :: _, [] => false
  | a :: as, b :: bs =>
    if a.toNat < b.toNat then true
    else if b.toNat < a.toNat then false
    else listCharLe as bs

/-- Rust string `<=` (lexicographic). -/
def str_le (a b : String) : Bool := listCharLe a.data b.data

/-- Rust string `<` (lexicographic). -/
def str_lt (a b : String) : Bool := listCharLt a.data b.data

/-- Rust `str::ends_with` for string patterns: a byte-suffix test, which for
valid UTF-8 equals a character-suffix test. -/
def rstr_ends_with (s pat : String) : Bool := pat.data.isSuffixOf s.data

/-- Rust `str::starts_with` for string patterns. -/
def rstr_starts_with (s pat : String) : Bool := pat.data.isPrefixOf s.data

/-- Association-list rendering of a `HashMap<String, String>` lookup, used
for the per-section field map built by `read_section_into_map`
(src/lib.rs:57-63). -/
def mapGet (m : List (String × String)) (k : String) : Option String :=
  (m.find? (fun p => p.1 == k)).map (fun p => p.2)

/-- Association-list rendering of the `Templates` table
(`HashMap<String, HashMap<String, String>>`, src/lib.rs:65). -/
def templatesGet (ts : List (String × List (String × String))) (k : String) :
    Option (List (String × String)) :=
  (ts.find? (fun p => p.1 == k)).map (fun p => p.2)

/-- Type of the external `strfmt` crate's substitution function: a template
string plus the section's field map, giving the substituted string or an
error.  Every call site in `run_section` propagates the error with `?`. -/
def Strfmt : Type := String → List (String × String) → Except String String

/-- Rust `?`-style sequencing on `Except`. -/
def exBind {α β : Type} (x : Except String α) (f : α → Except String β) :
    Except String β :=
  match x with
  | Except.error e => Except.error e
  | Except.ok a => f a

/-- One `if let Some(value) = map.get(key) { field = strfmt(value, vars)?; }`
step from `insert_fields_from_template` / `run_section`: when `key` is present
in `fields`, substitute it against `values` and update the config with `upd`;
otherwise leave the config unchanged. -/
def setFieldVia (fmt : Strfmt) (values fields : List (String × String))
    (key : String) (upd : Config → String → Config) (cf : Config) :
    Except String Config :=
  match mapGet fields key with
  | some v => exBind (fmt v values) (fun r => Except.ok (upd cf r))
  | none => Except.ok cf

/-- Mirrors `insert_fields_from_template` (src/lib.rs:107-140): when the
section declares a `template`, look it up (an error when absent) and copy the
template's `page_url`, `anchor_tag`, `version_tag` and `method` fields into
the config, each substituted against the section's own values. -/
def insert_fields_from_template (fmt : Strfmt)
    (templates : List (String × List (String × String)))
    (values : List (String × String)) (cf : Config) : Except String Config :=
  match mapGet values "template" with
  | none => Except.ok cf
  | some t =>
    match templatesGet templates t with
    | none => Except.error ( "The specified template was not found: " ++ t)
    | some tfields =>
      exBind (setFieldVia fmt values tfields "page_url"
          (fun c r => { c with page_url := r }) { cf with template := t }) (fun c1 =>
      exBind (setFieldVia fmt values tfields "anchor_tag"
          (fun c r => { c with anchor_tag := r }) c1) (fun c2 =>
      exBind (setFieldVia fmt values tfields "version_tag"
          (fun c r => { c with version_tag := some r }) c2) (fun c3 =>
      setFieldVia fmt values tfields "method"
        (fun c r => { c with method := r }) c3)))

/-- The field-resolution tail of `run_section` (src/lib.rs:170-210): the
anchor/version fields are substituted when present; the member filename
defaults to the section name when absent; `desired_filename` defaults to the
resolved member filename. -/
def run_section_fields (fmt : Strfmt) (tmp : List (String × String))
    (sectionName : String) (cf : Config) : Except String Config :=
  exBind (setFieldVia fmt tmp tmp "anchor_tag"
      (fun c r => { c with anchor_tag := r }) cf) (fun c1 =>
  exBind (setFieldVia fmt tmp tmp "anchor_text"
      (fun c r => { c with anchor_text := r }) c1) (fun c2 =>
  exBind (setFieldVia fmt tmp tmp "version_tag"
      (fun c r => { c with version_tag := some r }) c2) (fun c3 =>
  exBind (match mapGet tmp "target_filename_to_extract_from_archive" with
          | some v => exBind (fmt v tmp) (fun r =>
              Except.ok { c3 with target_filename_to_extract_from_archive := some r })
          | none =>
              Except.ok
                { c3 with
                  target_filename_to_extract_from_archive := some sectionName }) (fun c4 =>
  exBind (setFieldVia fmt tmp tmp "version"
      (fun c r => { c with version := some r }) c4) (fun c5 =>
  match mapGet tmp "desired_filename" with
  | some v => exBind (fmt v tmp) (fun r =>
      Except.ok { c5 with desired_filename := some r })
  | none =>
      Except.ok
        { c5 with
          desired_filename := c5.target_filename_to_extract_from_archive })))))

/-- The configuration-resolution phase of `run_section` (src/lib.rs:142-210):
apply the template, then require `page_url` (a missing one is a warning and a
silent `Ok` return, modelled as `ok none`), then resolve the remaining fields.
A resolved section is `ok (some cfg)`. -/
def run_section_config (fmt : Strfmt)
    (templates : List (String × List (String × String)))
    (tmp : List (String × String)) (sectionName : String) :
    Except String (Option Config) :=
  exBind (insert_fields_from_template fmt templates tmp Config.new) (fun cf0 =>
    match mapGet tmp "page_url" with
    | some p =>
        Except.map some (run_section_fields fmt tmp sectionName
          { cf0 with page_url := p })
    | none =>
        if cf0.page_url = "" then Except.ok none
        else Except.map some (run_section_fields fmt tmp sectionName cf0))

/-- Mirrors `target_file_already_exists` (src/lib.rs:234-244): check
`desired_filename`, falling back to the archive member name, and panic when
both are absent.  The filesystem is abstracted as the predicate
`fileExists`. -/
def target_file_already_exists (fileExists : String → Bool) (conf : Config) :
    ROutcome Bool :=
  match conf.desired_filename with
  | some fname => ROutcome.ok (fileExists fname)
  | none =>
    match conf.target_filename_to_extract_from_archive with
    | some fname => ROutcome.ok (fileExists fname)
    | none => ROutcome.panicked "This should be impossible"

/-- The filename `target_file_already_exists` checks: `desired_filename`,
falling back to the archive member name. -/
def target_to_check (conf : Config) : Option String :=
  match conf.desired_filename with
  | some fname => some fname
  | none => conf.target_filename_to_extract_from_archive

/-- Decision taken by the version gate inside `process`. -/
inductive GateDecision where
  | no_update
  | download
deriving DecidableEq, Repr

/-- The version gate of `process` (src/lib.rs:259-267): first unwrap the
recorded version (a panic when it is `None`), then return `no_update` when the
target file exists and the found version is lexicographically ≤ the recorded
one, and `download` otherwise. -/
def process_gate (fileExists : String → Bool) (conf : Config) (hit : Hit) :
    ROutcome GateDecision :=
  match conf.version with
  | none => ROutcome.panicked "called Option::unwrap() on a None value"
  | some existing_version =>
    match target_file_already_exists fileExists conf with
    | ROutcome.ok ex =>
        if ex && str_le hit.version existing_version then
          ROutcome.ok GateDecision.no_update
        else ROutcome.ok GateDecision.download
    | ROutcome.error e => ROutcome.error e
    | ROutcome.panicked m => ROutcome.panicked m

/-- The fixed set of transient HTTP status codes that trigger a retry
(src/lib.rs:396 and src/lib.rs:491). -/
def retryable (s : Nat) : Bool :=
  s == 408 || s == 425 || s == 429 || s == 500 || s == 502 || s == 503 || s == 504

/-- Success statuses `200..=299` (src/lib.rs:394 and src/lib.rs:489). -/
def success_status (s : Nat) : Bool :=
  Nat.ble 200 s && Nat.ble s 299

/-- The fetch loop with retry and backoff that appears verbatim in both
`parse_json` (src/lib.rs:379-412) and `parse_html_page` (src/lib.rs:474-506).
`statuses i` is the HTTP status of the i-th call; the counter is
`attempts_remaining`, decremented before each call exactly as in the source,
so the sleep before a retry is `min((10 - attempts_remaining) * 4, 60)`
seconds.  The result pairs the list of sleep durations (in order) with the
loop outcome; exhausting the attempts yields the `Failed to download`
error. -/
def fetch_attempts (statuses : Nat → Nat) : Nat → Nat → List Nat × ROutcome Nat
  | 0, _ => ([], ROutcome.error "Failed to download")
  | rem + 1, idx =>
    if success_status (statuses idx) then ([], ROutcome.ok (statuses idx))
    else if retryable (statuses idx) then
      (min ((10 - rem) * 4) 60 :: (fetch_attempts statuses rem (idx + 1)).1,
        (fetch_attempts statuses rem (idx + 1)).2)
    else ([], ROutcome.error ( "Unexpected error fetching, status " ++
      toString (statuses idx)))

/-- The fetch loop of `parse_json` (src/lib.rs:379-412), started with
`attempts_remaining = 10`. -/
def parse_json_fetch (statuses : Nat → Nat) : List Nat × ROutcome Nat :=
  fetch_attempts statuses 10 0

/-- The fetch loop of `parse_html_page` (src/lib.rs:474-506), started with
`attempts_remaining = 10`. -/
def parse_html_fetch (statuses : Nat → Nat) : List Nat × ROutcome Nat :=
  fetch_attempts statuses 10 0

/-- Mirrors `slice_from_end` (src/lib.rs:579-581):
`s.char_indices().rev().nth(n)` skips `n` characters from the end and lands on
the character `n+1` positions from the end (Rust's `nth` is zero-indexed), so
the returned slice holds the trailing `n + 1` characters, and the function
returns `None` when the string has fewer than `n + 1` characters — although
its own doc comment says it returns the last `n` characters. -/
def slice_from_end (s : String) (n : Nat) : Option String :=
  if n + 1 ≤ s.data.length then
    some (String.mk (s.data.drop (s.data.length - (n + 1))))
  else none

/-- The extension-dispatch block of `process` (src/lib.rs:271-319), in source
order: `.tar.gz`/`.tgz`, then `.gz`, then `.tar.xz`/`.txz`, then `.zip`, then
the raw-binary suffixes, then the `slice_from_end(url, 8)` fallback (dot-free
trailing slice → extensionless binary, written `some ""`); `none` models the
warn-and-skip return `Ok(None)`. -/
def chooseExt (download_url : String) : Option String :=
  if rstr_ends_with download_url ".tar.gz" || rstr_ends_with download_url ".tgz" then
    some ".tar.gz"
  else if rstr_ends_with download_url ".gz" then some ".gz"
  else if rstr_ends_with download_url ".tar.xz" || rstr_ends_with download_url ".txz" then
    some ".tar.xz"
  else if rstr_ends_with download_url ".zip" then some ".zip"
  else if rstr_ends_with download_url ".exe" then some ".exe"
  else if rstr_ends_with download_url ".com" then some ".com"
  else if rstr_ends_with download_url ".appimage" then some ".appimage"
  else if rstr_ends_with download_url ".AppImage" then some ".AppImage"
  else
    match slice_from_end download_url 8 with
    | some suffix => if !(suffix.data.contains '.') then some "" else none
    | none => none

/-- One archive member as the external archive crates (`zip`, `tar`) yield it:
its path, already split into components, and its raw bytes. -/
structure ArchiveEntry where
  path : List String
  bytes : List Nat
deriving DecidableEq, Repr

/-- Rust `Path::file_name()` on a component list: the last component, or
`None` for an empty path or one ending in `..`. -/
def entry_file_name (path : List String) : Option String :=
  match path.getLast? with
  | none => none
  | some c => if c = ".." then none else some c

/-- The per-entry test shared by the three archive loops: take the entry's
base filename (not its full path) and test it with the compiled member
regex; an entry without a base filename is skipped. -/
def entry_matches (is_match : String → Bool) (e : ArchiveEntry) : Bool :=
  match entry_file_name e.path with
  | some p => is_match p
  | none => false

/-- The member-search loop shared by `extract_target_from_zipfile`
(src/lib.rs:595-623), `extract_target_from_tarfile` (src/lib.rs:667-685) and
`extract_target_from_tarxz` (src/lib.rs:706-724): walk the entries in the
order the archive iterator yields them, and return the first matching entry's
bytes; `none` models the warn-and-return path when nothing matches. -/
def extract_target_loop (is_match : String → Bool) :
    List ArchiveEntry → Option (List Nat)
  | [] => none
  | e :: rest =>
    if entry_matches is_match e then some e.bytes
    else extract_target_loop is_match rest

/-- Mirrors `make_re_target_filename` (src/lib.rs:732-743): the member pattern
is wrapped in `^`…`$` so the compiled regex is a full match; the `unwrap`
panics when the member pattern is absent. -/
def make_re_target_filename (conf : Config) : ROutcome String :=
  match conf.target_filename_to_extract_from_archive with
  | none => ROutcome.panicked "called Option::unwrap() on a None value"
  | some p => ROutcome.ok ( "^" ++ p ++ "$")

/-- The common shape of the three archive extractors: `desired_filename` is
the write target (its absence is an `expect` panic), the member pattern is
compiled anchored, and the first matching entry's bytes are written to the
desired path.  `engine pat text` stands for the external regex crate's
`Regex::new(pat).is_match(text)`. The returned pair is
(written filename, written bytes); `ok none` is the soft no-match outcome. -/
def extract_target_from_archive (engine : String → String → Bool)
    (conf : Config) (entries : List ArchiveEntry) :
    ROutcome (Option (String × List Nat)) :=
  match conf.desired_filename with
  | none =>
      ROutcome.panicked
        "To extract from an archive, a target filename must be supplied"
  | some target_filename =>
    match make_re_target_filename conf with
    | ROutcome.panicked m => ROutcome.panicked m
    | ROutcome.error e => ROutcome.panicked e
    | ROutcome.ok pat =>
        ROutcome.ok ((extract_target_loop (engine pat) entries).map
          (fun b => (target_filename, b)))

/-- One anchor candidate from the parsed HTML document: its `href` attribute
(if any) and its text nodes. -/
structure HtmlElement where
  href : Option String
  texts : List String
deriving DecidableEq, Repr

/-- The download-URL resolution dispatch of `parse_html_page`
(src/lib.rs:527-542): an href starting with `http` is used verbatim; one
starting with `/` or `../` is resolved against the domain root; any other is
resolved against the page URL.  The two resolution routines of the external
`url` crate are the parameters `rroot` and `rrel`. -/
def resolve_href (rroot rrel : String → String → String) (url href : String) :
    String :=
  if rstr_starts_with href "http" then href
  else if rstr_starts_with href "/" || rstr_starts_with href "../" then
    rroot url href
  else rrel url href

/-- The version string computed from the first element matching the version
selector: its text nodes joined with no separator, then trimmed
(src/lib.rs:555-556). -/
def version_from_texts (vtexts : Option (List String)) : Option String :=
  vtexts.map (fun ts => (String.join ts).trim)

/-- The anchor-scan loop of `parse_html_page` (src/lib.rs:524-575): skip
elements without an `href`; resolve the href; join the element's text nodes
with single spaces and trim; test that text against the anchor pattern
compiled anchored at both ends (`^`…`$`, src/lib.rs:521); on the first match,
yield a `Hit` from the version element (or the soft no-version outcome);
when no element matches, yield the soft no-match outcome. -/
def parse_html_scan (engine : String → String → Bool)
    (rroot rrel : String → String → String) (conf : Config) (url : String)
    (vtexts : Option (List String)) : List HtmlElement → Option Hit
  | [] => none
  | el :: rest =>
    match el.href with
    | none => parse_html_scan engine rroot rrel conf url vtexts rest
    | some href =>
      if engine ( "^" ++ conf.anchor_text ++ "$")
          ((String.intercalate " " el.texts).trim) then
        match version_from_texts vtexts with
        | some v => some ⟨v, resolve_href rroot rrel url href⟩
        | none => none
      else parse_html_scan engine rroot rrel conf url vtexts rest

/-- Whether an element is accepted by the HTML anchor scan: it has an `href`
and its whitespace-joined trimmed text matches the anchored pattern. -/
def html_element_hit (engine : String → String → Bool) (conf : Config)
    (el : HtmlElement) : Bool :=
  match el.href with
  | none => false
  | some _ =>
      engine ( "^" ++ conf.anchor_text ++ "$")
        ((String.intercalate " " el.texts).trim)

/-- The candidate-URL loop of `extract_data_from_json` (src/lib.rs:448-455):
return the first candidate the (unanchored) pattern matches, paired with the
version string. -/
def json_candidate_loop (is_match : String → Bool) (version_str : String) :
    List String → Option Hit
  | [] => none
  | u :: rest =>
    if is_match u then some ⟨version_str, u⟩
    else json_candidate_loop is_match version_str rest

/-- Mirrors `extract_data_from_json` (src/lib.rs:420-458).  The external
`jsonpath_rust` crate is the parameter `jp`: for a payload and a JSON-path
expression it gives either the parse failure of `JsonPathFinder::from_str`
(which the code `unwrap`s — a panic) or the list of query results, each
rendered `as_str` (`none` for a non-string value, defaulted to `""` by
`unwrap_or`).  An empty version-query result panics at the `[0]` index.  The
external regex compiler is `rn`, applied to the raw (unanchored)
`anchor_text`; its failure is the one `?`-propagated error. -/
def extract_data_from_json
    (jp : String → String → Except String (List (Option String)))
    (rn : String → Except String (String → Bool))
    (payload : String) (conf : Config) : ROutcome (Option Hit) :=
  match conf.version_tag with
  | none => ROutcome.panicked "called Option::unwrap() on a None value"
  | some vtag =>
    match jp payload vtag with
    | Except.error e =>
        ROutcome.panicked ( "called Result::unwrap() on an Err value: " ++ e)
    | Except.ok vitems =>
      match vitems with
      | [] =>
          ROutcome.panicked
            "index out of bounds: the len is 0 but the index is 0"
      | item :: _ =>
        match jp payload conf.anchor_tag with
        | Except.error e =>
            ROutcome.panicked
              ( "called Result::unwrap() on an Err value: " ++ e)
        | Except.ok uitems =>
          match rn conf.anchor_text with
          | Except.error e => ROutcome.error e
          | Except.ok is_match =>
              ROutcome.ok (json_candidate_loop is_match (item.getD "")
                (uitems.map (fun o => o.getD "")))

/-- Checks whether an outcome is a returned (propagated) `Err`. -/
def is_err_outcome {α : Type} : ROutcome α → Bool
  | ROutcome.error _ => true
  | _ => false

/-- Operations on the shared version-record store, including the lock
operations a mutual-exclusion discipline would need. -/
inductive StoreOp where
  | lock_acquire
  | lock_release
  | load_config (path : String)
  | set_item (sectionName key value : String)
  | write_config (path : String)
deriving DecidableEq, Repr

/-- Effect trace of the persistence step of `run_section`
(src/lib.rs:218-230): reload the ini file from disk, set the one section's
`version` key, write the file back.  The code performs no lock operation at
all; the comment at src/lib.rs:222 reads
`TODO: actually need a mutex around the following 3 lines.` -/
def run_section_persist_trace (sectionName new_version filename : String) :
    List StoreOp :=
  [StoreOp.load_config filename,
   StoreOp.set_item sectionName "version" new_version,
   StoreOp.write_config filename]

/-- Lookup in the modelled filesystem: filename to permission mode. -/
def fsGet (fs : List (String × Nat)) (f : String) : Option Nat :=
  (fs.find? (fun p => p.1 == f)).map (fun p => p.2)

/-- Write/overwrite a file's mode in the modelled filesystem. -/
def fsSet (fs : List (String × Nat)) (f : String) (mode : Nat) :
    List (String × Nat) :=
  (f, mode) :: fs.filter (fun p => p.1 != f)

/-- Mirrors `set_executable` (src/lib.rs:363-372): read the file's metadata —
an error when the file is absent, propagated by `?` — and set mode `0o755`
when no execute bit (`0o111`) is set; otherwise leave the mode alone. -/
def set_executable (fs : List (String × Nat)) (filename : String) :
    Except String (List (String × Nat)) :=
  match fsGet fs filename with
  | none => Except.error ( "No such file or directory: " ++ filename)
  | some mode =>
    if Nat.land mode 0o111 = 0 then Except.ok (fsSet fs filename 0o755)
    else Except.ok fs

/-- The extraction branch of `process` (src/lib.rs:328-349), with archive
parsing abstracted into the already-decoded `entries` list: the three archive
kinds run the member-search loop and write the match (if any) to
`desired_filename`; `.gz` and the raw-binary extensions write the whole
download to `desired_filename` unconditionally.  Freshly written files get
mode `0o644`. -/
def process_extract_step (engine : String → String → Bool) (conf : Config)
    (ext : String) (entries : List ArchiveEntry) (fs : List (String × Nat)) :
    ROutcome (List (String × Nat)) :=
  if ext = ".tar.xz" ∨ ext = ".zip" ∨ ext = ".tar.gz" then
    match extract_target_from_archive engine conf entries with
    | ROutcome.panicked m => ROutcome.panicked m
    | ROutcome.error e => ROutcome.error e
    | ROutcome.ok none => ROutcome.ok fs
    | ROutcome.ok (some (tf, _)) => ROutcome.ok (fsSet fs tf 0o644)
  else if ext = ".gz" then
    match conf.desired_filename with
    | none =>
        ROutcome.panicked
          "To extract from an archive, a target filename must be supplied"
    | some tf => ROutcome.ok (fsSet fs tf 0o644)
  else if ext = ".exe" ∨ ext = "" ∨ ext = ".com" ∨ ext = ".appimage" ∨
      ext = ".AppImage" then
    match conf.desired_filename with
    | none => ROutcome.panicked "called Option::unwrap() on a None value"
    | some tf => ROutcome.ok (fsSet fs tf 0o644)
  else ROutcome.ok fs

/-- The post-processing tail of `process` (src/lib.rs:351-356): when
`desired_filename` is set and the extension is not `.exe`, call
`set_executable` on it, propagating its error with `?`. -/
def process_finalize (conf : Config) (ext : String)
    (fs : List (String × Nat)) : ROutcome (List (String × Nat)) :=
  match conf.desired_filename with
  | none => ROutcome.ok fs
  | some filename =>
    if ext ≠ ".exe" then
      match set_executable fs filename with
      | Except.error e => ROutcome.error e
      | Except.ok fs2 => ROutcome.ok fs2
    else ROutcome.ok fs

/-- The extraction branch followed by the post-processing tail of `process`
(src/lib.rs:328-356). -/
def process_after_download (engine : String → String → Bool) (conf : Config)
    (ext : String) (entries : List ArchiveEntry)
    (fs : List (String × Nat)) : ROutcome (List (String × Nat)) :=
  match process_extract_step engine conf ext entries fs with
  | ROutcome.panicked m => ROutcome.panicked m
  | ROutcome.error e => ROutcome.error e
  | ROutcome.ok fs1 => process_finalize conf ext fs1

/-- Identity substitution: a `Strfmt` that performs no replacement, adequate
for field values without placeholders. -/
def fmt_id : Strfmt := fun s _ => Except.ok s

/-- A one-field section map used as concrete input. -/
def sample_tmp : List (String × String) := [( "page_url", "x")]

/-- The resolved configuration for `sample_tmp` under section name
`ripgrep`. -/
def cfgW : Config :=
  { Config.new with
    page_url := "x",
    target_filename_to_extract_from_archive := some "ripgrep",
    desired_filename := some "ripgrep" }

/-- A concrete regex engine: matches exactly the text `rg` against the
anchored pattern. -/
def engineW : String → String → Bool :=
  fun p t => p == "^rg$" && t == "rg"

/-- A concrete configuration with member pattern and desired name `rg`. -/
def confW5 : Config :=
  { Config.new with
    target_filename_to_extract_from_archive := some "rg",
    desired_filename := some "rg" }

/-- A concrete two-entry archive whose second entry's base name is `rg`. -/
def entriesW : List ArchiveEntry :=
  [⟨["dir", "other"], [1]⟩, ⟨["dir", "rg"], [2, 3]⟩]

/-- A jsonpath engine that fails to parse the expression `$bad` and answers
every other query with one string result. -/
def jpBad : String → String → Except String (List (Option String)) :=
  fun _ p =>
    if p == "$bad" then Except.error "path parse error"
    else Except.ok [some "1.0"]

/-- A regex compiler that always succeeds with an always-true matcher. -/
def rnTrue : String → Except String (String → Bool) :=
  fun _ => Except.ok (fun _ => true)

/-- A configuration whose version selector is the malformed path `$bad`. -/
def confBadPath : Config := { Config.new with version_tag := some "$bad" }

/-- A jsonpath engine that answers the version query with one result and the
anchor query with no results at all. -/
def jpNoAnchor : String → String → Except String (List (Option String)) :=
  fun _ p =>
    if p == "$.tag_name" then Except.ok [some "13.0.0"]
    else Except.ok []

/-- A configuration for the JSON variant whose anchor query will come back
empty. -/
def confNoAnchor : Config :=
  { Config.new with
    version_tag := some "$.tag_name",
    anchor_tag := "$.assets",
    anchor_text := "x" }

/-- A jsonpath engine for the round-trip witness: version query yields
`13.0.0`, anchor query yields two candidate URLs. -/
def jpTwo : String → String → Except String (List (Option String)) :=
  fun _ p =>
    if p == "$.tag_name" then Except.ok [some "13.0.0"]
    else Except.ok [some "u1", some "u2"]

/-- A regex compiler whose matcher accepts exactly the string `u2`. -/
def rnU2 : String → Except String (String → Bool) :=
  fun _ => Except.ok (fun u => u == "u2")

/-- A configuration for the JSON-variant witness. -/
def confJ6 : Config :=
  { Config.new with
    version_tag := some "$.tag_name",
    anchor_tag := "$.assets",
    anchor_text := "u2" }

/-- Lexicographic `≤` is the boolean negation of the reversed strict `<`. -/
theorem listCharLe_eq_not_lt (a : List Char) :
    ∀ b : List Char, listCharLe a b = !listCharLt b a := by
  induction a with
  | nil => intro b; cases b <;> rfl
  | cons x xs ih =>
    intro b
    cases b with
    | nil => rfl
    | cons y ys =>
      simp only [listCharLe, listCharLt]
      by_cases hxy : x.toNat < y.toNat
      · have hyx : ¬ y.toNat < x.toNat := Nat.lt_asymm hxy
        simp [hxy, hyx]
      · by_cases hyx : y.toNat < x.toNat
        · simp [hxy, hyx]
        · simp [hxy, hyx, ih ys]

/-- String form of `listCharLe_eq_not_lt`. -/
theorem str_le_eq_not_lt (a b : String) : str_le a b = !str_lt b a :=
  listCharLe_eq_not_lt a.data b.data

/-- C1: with a recorded version present and a resolvable target name, the
version gate of `process` decides `download` exactly when the target file is
absent or the found version is lexicographically strictly greater than the
recorded one; when the target exists and found ≤ recorded it decides
`no_update` (no download). -/
theorem C1_version_gate (fileExists : String → Bool) (conf : Config)
    (hit : Hit) (recorded tgt : String)
    (hv : conf.version = some recorded)
    (ht : target_to_check conf = some tgt) :
    (process_gate fileExists conf hit = ROutcome.ok GateDecision.download ↔
      (fileExists tgt = false ∨ str_lt recorded hit.version = true)) ∧
    (fileExists tgt = true → str_le hit.version recorded = true →
      process_gate fileExists conf hit = ROutcome.ok GateDecision.no_update) := by
  have hexists : target_file_already_exists fileExists conf =
      ROutcome.ok (fileExists tgt) := by
    cases hdf : conf.desired_filename with
    | some f =>
      simp only [target_to_check, hdf] at ht
      simp [target_file_already_exists, hdf, ht]
    | none =>
      simp only [target_to_check, hdf] at ht
      simp [target_file_already_exists, hdf, ht]
  have hle := str_le_eq_not_lt hit.version recorded
  unfold process_gate
  rw [hv, hexists]
  cases hfe : fileExists tgt <;> cases hlt : str_lt recorded hit.version <;>
    simp_all

/-- Witness for C1: recorded version `2.0`, found version `1.9`, target
present on disk — the gate decides `no_update`. -/
theorem C1_version_gate_witness :
    process_gate (fun _ => true)
      ⟨ "", "", some "2.0", "", "", "", none, some "rg", some "rg"⟩
      ⟨ "1.9", "u"⟩ = ROutcome.ok GateDecision.no_update :=
  (C1_version_gate (fun _ => true)
      ⟨ "", "", some "2.0", "", "", "", none, some "rg", some "rg"⟩
      ⟨ "1.9", "u"⟩ "2.0" "rg" rfl rfl).2 rfl (by decide)

/-- Retryable statuses are never success statuses. -/
theorem retryable_not_success (s : Nat) (h : retryable s = true) :
    success_status s = false := by
  simp only [retryable, Bool.or_eq_true, beq_iff_eq] at h
  rcases h with ((((((h | h) | h) | h) | h) | h) | h) <;> subst h <;> rfl

/-- Unfolding step of the fetch loop on a retryable status. -/
theorem fetch_step_retry (statuses : Nat → Nat) (rem idx : Nat)
    (h : retryable (statuses idx) = true) :
    fetch_attempts statuses (rem + 1) idx =
      (min ((10 - rem) * 4) 60 :: (fetch_attempts statuses rem (idx + 1)).1,
        (fetch_attempts statuses rem (idx + 1)).2) := by
  have hs : success_status (statuses idx) = false := retryable_not_success _ h
  simp [fetch_attempts, hs, h]

/-- When every status in range is retryable, the loop exhausts its attempts
and fails. -/
theorem fetch_attempts_fail_of_retryable (statuses : Nat → Nat) (rem : Nat) :
    ∀ idx, (∀ i, i < rem → retryable (statuses (idx + i)) = true) →
      (fetch_attempts statuses rem idx).2 = ROutcome.error "Failed to download" := by
  induction rem with
  | zero => intro idx _; rfl
  | succ n ih =>
    intro idx h
    have hr : retryable (statuses idx) = true := by
      simpa using h 0 (Nat.succ_pos n)
    rw [fetch_step_retry statuses n idx hr]
    exact ih (idx + 1) (fun i hi => by
      have h2 := h (i + 1) (Nat.succ_lt_succ hi)
      have e : idx + (i + 1) = idx + 1 + i := by omega
      rw [e] at h2
      exact h2)

/-- C2: in both fetch loops, three consecutive `503` responses followed by a
`200` produce exactly the three sleeps `4, 8, 12` seconds before the
successful fourth attempt; and when all ten attempts draw retryable statuses
the fetch fails with an error. -/
theorem C2_retry_backoff :
    (∀ tail : Nat → Nat,
      parse_json_fetch (fun i => if i < 3 then 503 else if i = 3 then 200 else tail i) =
        ([4, 8, 12], ROutcome.ok 200) ∧
      parse_html_fetch (fun i => if i < 3 then 503 else if i = 3 then 200 else tail i) =
        ([4, 8, 12], ROutcome.ok 200)) ∧
    (∀ statuses : Nat → Nat,
      (∀ i, i < 10 → retryable (statuses i) = true) →
      (parse_json_fetch statuses).2 = ROutcome.error "Failed to download" ∧
      (parse_html_fetch statuses).2 = ROutcome.error "Failed to download") := by
  constructor
  · intro tail
    exact ⟨rfl, rfl⟩
  · intro statuses h
    have key := fetch_attempts_fail_of_retryable statuses 10 0
      (fun i hi => by simpa using h i hi)
    exact ⟨key, key⟩

/-- Witness for C2 at concrete status sequences. -/
theorem C2_retry_backoff_witness :
    parse_json_fetch (fun i => if i < 3 then 503 else if i = 3 then 200 else 0) =
      ([4, 8, 12], ROutcome.ok 200) ∧
    (parse_json_fetch (fun _ => 503)).2 = ROutcome.error "Failed to download" :=
  ⟨(C2_retry_backoff.1 (fun _ => 0)).1,
   (C2_retry_backoff.2 (fun _ => 503) (fun _ _ => rfl)).1⟩

/-- Inversion for `exBind`: a successful bind came from a successful first
step. -/
theorem exBind_ok {α β : Type} {x : Except String α} {f : α → Except String β}
    {b : β} (h : exBind x f = Except.ok b) :
    ∃ a, x = Except.ok a ∧ f a = Except.ok b := by
  cases x with
  | error e => simp [exBind] at h
  | ok a => exact ⟨a, rfl, h⟩

/-- A successful `setFieldVia` either left the config unchanged or applied
its update once. -/
theorem setFieldVia_ok {fmt : Strfmt} {values fields : List (String × String)}
    {key : String} {upd : Config → String → Config} {cf c' : Config}
    (h : setFieldVia fmt values fields key upd cf = Except.ok c') :
    c' = cf ∨ ∃ r, c' = upd cf r := by
  unfold setFieldVia at h
  cases hk : mapGet fields key with
  | none =>
    rw [hk] at h
    exact Or.inl (Except.ok.inj h).symm
  | some v =>
    rw [hk] at h
    obtain ⟨r, _, hr⟩ := exBind_ok h
    exact Or.inr ⟨r, (Except.ok.inj hr).symm⟩

/-- When the key is absent, `setFieldVia` is the identity. -/
theorem setFieldVia_none (fmt : Strfmt) (values fields : List (String × String))
    (key : String) (upd : Config → String → Config) (cf : Config)
    (hk : mapGet fields key = none) :
    setFieldVia fmt values fields key upd cf = Except.ok cf := by
  simp [setFieldVia, hk]

/-- Inversion for `Except.map some`. -/
theorem map_some_ok {x : Except String Config} {cfg : Config}
    (h : Except.map some x = Except.ok (some cfg)) : x = Except.ok cfg := by
  cases x with
  | error e => simp [Except.map] at h
  | ok a =>
    simp [Except.map] at h
    rw [h]

/-- `insert_fields_from_template` never touches the `version` field. -/
theorem insert_fields_version {fmt : Strfmt}
    {templates : List (String × List (String × String))}
    {values : List (String × String)} {cf c' : Config}
    (h : insert_fields_from_template fmt templates values cf = Except.ok c') :
    c'.version = cf.version := by
  unfold insert_fields_from_template at h
  split at h
  · cases Except.ok.inj h
    rfl
  · split at h
    · exact absurd h (by simp)
    · obtain ⟨c1, h1, h⟩ := exBind_ok h
      obtain ⟨c2, h2, h⟩ := exBind_ok h
      obtain ⟨c3, h3, h⟩ := exBind_ok h
      have v1 : c1.version = cf.version := by
        rcases setFieldVia_ok h1 with h' | ⟨r, h'⟩ <;> cases h' <;> rfl
      have v2 : c2.version = c1.version := by
        rcases setFieldVia_ok h2 with h' | ⟨r, h'⟩ <;> cases h' <;> rfl
      have v3 : c3.version = c2.version := by
        rcases setFieldVia_ok h3 with h' | ⟨r, h'⟩ <;> cases h' <;> rfl
      have v4 : c'.version = c3.version := by
        rcases setFieldVia_ok h with h' | ⟨r, h'⟩ <;> cases h' <;> rfl
      rw [v4, v3, v2, v1]

/-- Field-level specification of the resolution tail of `run_section`:
defaults for the member filename and the desired filename, both always set,
and the `version` field untouched when its key is absent. -/
theorem run_section_fields_spec {fmt : Strfmt} {tmp : List (String × String)}
    {sectionName : String} {cf cfg : Config}
    (h : run_section_fields fmt tmp sectionName cf = Except.ok cfg) :
    (mapGet tmp "target_filename_to_extract_from_archive" = none →
      cfg.target_filename_to_extract_from_archive = some sectionName) ∧
    (mapGet tmp "desired_filename" = none →
      cfg.desired_filename = cfg.target_filename_to_extract_from_archive) ∧
    cfg.target_filename_to_extract_from_archive.isSome = true ∧
    cfg.desired_filename.isSome = true ∧
    (mapGet tmp "version" = none → cfg.version = cf.version) := by
  unfold run_section_fields at h
  obtain ⟨c1, h1, h⟩ := exBind_ok h
  obtain ⟨c2, h2, h⟩ := exBind_ok h
  obtain ⟨c3, h3, h⟩ := exBind_ok h
  obtain ⟨c4, h4, h⟩ := exBind_ok h
  obtain ⟨c5, h5, h⟩ := exBind_ok h
  have v1 : c1.version = cf.version := by
    rcases setFieldVia_ok h1 with h' | ⟨r, h'⟩ <;> cases h' <;> rfl
  have v2 : c2.version = c1.version := by
    rcases setFieldVia_ok h2 with h' | ⟨r, h'⟩ <;> cases h' <;> rfl
  have v3 : c3.version = c2.version := by
    rcases setFieldVia_ok h3 with h' | ⟨r, h'⟩ <;> cases h' <;> rfl
  have hc4 : (mapGet tmp "target_filename_to_extract_from_archive" = none →
      c4.target_filename_to_extract_from_archive = some sectionName) ∧
      c4.target_filename_to_extract_from_archive.isSome = true ∧
      c4.version = c3.version := by
    cases hkT : mapGet tmp "target_filename_to_extract_from_archive" with
    | none =>
      rw [hkT] at h4
      cases Except.ok.inj h4
      exact ⟨fun _ => rfl, rfl, rfl⟩
    | some v =>
      rw [hkT] at h4
      obtain ⟨r, _, hr⟩ := exBind_ok h4
      cases Except.ok.inj hr
      exact ⟨fun hco => by simp [hkT] at hco, rfl, rfl⟩
  have hc5t : c5.target_filename_to_extract_from_archive =
      c4.target_filename_to_extract_from_archive := by
    rcases setFieldVia_ok h5 with h' | ⟨r, h'⟩ <;> cases h' <;> rfl
  have hc5v : mapGet tmp "version" = none → c5.version = c4.version := by
    intro hk
    rw [setFieldVia_none fmt tmp tmp "version"
      (fun c r => { c with version := some r }) c4 hk] at h5
    cases Except.ok.inj h5
    rfl
  have hcfg : cfg.target_filename_to_extract_from_archive =
      c5.target_filename_to_extract_from_archive ∧
      (mapGet tmp "desired_filename" = none →
        cfg.desired_filename = cfg.target_filename_to_extract_from_archive) ∧
      (cfg.desired_filename.isSome = true ∨
        cfg.desired_filename = c5.target_filename_to_extract_from_archive) ∧
      cfg.version = c5.version := by
    cases hkD : mapGet tmp "desired_filename" with
    | none =>
      rw [hkD] at h
      cases Except.ok.inj h
      exact ⟨rfl, fun _ => rfl, Or.inr rfl, rfl⟩
    | some v =>
      rw [hkD] at h
      obtain ⟨r, _, hr⟩ := exBind_ok h
      cases Except.ok.inj hr
      exact ⟨rfl, fun hco => by simp [hkD] at hco, Or.inl rfl, rfl⟩
  obtain ⟨ht_eq, hdef, hsome_or, hv_eq⟩ := hcfg
  refine ⟨?_, hdef, ?_, ?_, ?_⟩
  · intro hk
    rw [ht_eq, hc5t]
    exact hc4.1 hk
  · rw [ht_eq, hc5t]
    exact hc4.2.1
  · rcases hsome_or with hs | he
    · exact hs
    · rw [he, hc5t]
      exact hc4.2.1
  · intro hk
    rw [hv_eq, hc5v hk, hc4.2.2, v3, v2, v1]

/-- Specification of the whole resolution phase of `run_section` for a
section that was not skipped. -/
theorem run_section_config_spec {fmt : Strfmt}
    {templates : List (String × List (String × String))}
    {tmp : List (String × String)} {sectionName : String} {cfg : Config}
    (h : run_section_config fmt templates tmp sectionName =
      Except.ok (some cfg)) :
    (mapGet tmp "target_filename_to_extract_from_archive" = none →
      cfg.target_filename_to_extract_from_archive = some sectionName) ∧
    (mapGet tmp "desired_filename" = none →
      cfg.desired_filename = cfg.target_filename_to_extract_from_archive) ∧
    cfg.target_filename_to_extract_from_archive.isSome = true ∧
    cfg.desired_filename.isSome = true ∧
    (mapGet tmp "version" = none → cfg.version = none) := by
  unfold run_section_config at h
  obtain ⟨cf0, h0, h⟩ := exBind_ok h
  have hv0 : cf0.version = none := (insert_fields_version h0).trans rfl
  cases hp : mapGet tmp "page_url" with
  | some p =>
    rw [hp] at h
    have spec := run_section_fields_spec (map_some_ok h)
    exact ⟨spec.1, spec.2.1, spec.2.2.1, spec.2.2.2.1,
      fun hk => by rw [spec.2.2.2.2 hk]; exact hv0⟩
  | none =>
    rw [hp] at h
    by_cases he : cf0.page_url = ""
    · rw [if_pos he] at h
      exact absurd (Except.ok.inj h) (by simp)
    · rw [if_neg he] at h
      have spec := run_section_fields_spec (map_some_ok h)
      exact ⟨spec.1, spec.2.1, spec.2.2.1, spec.2.2.2.1,
        fun hk => by rw [spec.2.2.2.2 hk]; exact hv0⟩

/-- C3: after a section's configuration resolves, an absent raw member
filename defaults to the section name, an absent raw desired filename
defaults to the resolved member filename, and neither field is ever `none`
once defaulting completes. -/
theorem C3_config_defaulting (fmt : Strfmt)
    (templates : List (String × List (String × String)))
    (tmp : List (String × String)) (sectionName : String) (cfg : Config)
    (h : run_section_config fmt templates tmp sectionName =
      Except.ok (some cfg)) :
    (mapGet tmp "target_filename_to_extract_from_archive" = none →
      cfg.target_filename_to_extract_from_archive = some sectionName) ∧
    (mapGet tmp "desired_filename" = none →
      cfg.desired_filename = cfg.target_filename_to_extract_from_archive) ∧
    cfg.target_filename_to_extract_from_archive.isSome = true ∧
    cfg.desired_filename.isSome = true :=
  ⟨(run_section_config_spec h).1, (run_section_config_spec h).2.1,
   (run_section_config_spec h).2.2.1, (run_section_config_spec h).2.2.2.1⟩

/-- Witness for C3 at a concrete one-field section named `ripgrep`. -/
theorem C3_config_defaulting_witness :
    cfgW.target_filename_to_extract_from_archive = some "ripgrep" ∧
    cfgW.desired_filename = cfgW.target_filename_to_extract_from_archive ∧
    cfgW.target_filename_to_extract_from_archive.isSome = true ∧
    cfgW.desired_filename.isSome = true := by
  have spec := C3_config_defaulting fmt_id [] sample_tmp "ripgrep" cfgW rfl
  exact ⟨spec.1 rfl, spec.2.1 rfl, spec.2.2.1, spec.2.2.2⟩

/-- C9: when a hit is produced but the resolved configuration carries no
recorded version, `process` panics at the `unwrap` instead of returning an
error or treating the absent version as always-update; and `run_section`
indeed leaves `version` at `none` whenever the raw section has no `version`
key. -/
theorem C9_missing_recorded_version :
    (∀ (fileExists : String → Bool) (conf : Config) (hit : Hit),
      conf.version = none →
      process_gate fileExists conf hit =
        ROutcome.panicked "called Option::unwrap() on a None value") ∧
    (∀ (fmt : Strfmt) (templates : List (String × List (String × String)))
        (tmp : List (String × String)) (sectionName : String) (cfg : Config),
      run_section_config fmt templates tmp sectionName =
        Except.ok (some cfg) →
      mapGet tmp "version" = none → cfg.version = none) := by
  constructor
  · intro fileExists conf hit hv
    unfold process_gate
    rw [hv]
  · intro fmt templates tmp sectionName cfg h hk
    exact (run_section_config_spec h).2.2.2.2 hk

/-- Witness for C9: the default config (version `None`) makes the gate panic,
and the concrete resolved section `ripgrep` carries no version. -/
theorem C9_missing_recorded_version_witness :
    process_gate (fun _ => false) Config.new ⟨ "1.0", "u"⟩ =
      ROutcome.panicked "called Option::unwrap() on a None value" ∧
    cfgW.version = none :=
  ⟨C9_missing_recorded_version.1 (fun _ => false) Config.new ⟨ "1.0", "u"⟩ rfl,
   C9_missing_recorded_version.2 fmt_id [] sample_tmp "ripgrep" cfgW rfl rfl⟩

/-- C4 (code bug evidence): for the URL `http://ab.cdefghij` the last eight
characters hold no dot, and for the eight-character dot-free URL `abcdefgh`
the whole string holds no dot, yet the dispatch skips both
(`chooseExt = none`) instead of treating them as extensionless raw binaries,
because `slice_from_end(url, 8)` actually inspects the trailing nine
characters and demands at least nine to exist. -/
theorem C4_extension_dispatch_gap :
    (( "http://ab.cdefghij" : String).data.reverse.take 8).contains '.' = false ∧
    chooseExt "http://ab.cdefghij" = none ∧
    (( "abcdefgh" : String).data.contains '.') = false ∧
    chooseExt "abcdefgh" = none := by
  refine ⟨?_, ?_, ?_, ?_⟩ <;> decide

/-- The member-search loop returns the first matching entry's bytes. -/
theorem extract_target_loop_eq_find (is_match : String → Bool)
    (entries : List ArchiveEntry) :
    extract_target_loop is_match entries =
      (entries.find? (entry_matches is_match)).map (fun e => e.bytes) := by
  induction entries with
  | nil => rfl
  | cons e rest ih =>
    cases hm : entry_matches is_match e with
    | true => simp [extract_target_loop, List.find?, hm]
    | false => simp [extract_target_loop, List.find?, hm, ih]

/-- C5: the archive extractors compile the member pattern anchored at both
ends, test each entry's base filename against it, write the first matching
entry's bytes to the desired output path and stop; when no entry matches,
nothing is written and the extractor still succeeds. -/
theorem C5_member_extraction (engine : String → String → Bool) (conf : Config)
    (entries : List ArchiveEntry) (pat tf : String)
    (hd : conf.desired_filename = some tf)
    (hp : conf.target_filename_to_extract_from_archive = some pat) :
    make_re_target_filename conf = ROutcome.ok ( "^" ++ pat ++ "$") ∧
    extract_target_from_archive engine conf entries =
      ROutcome.ok ((entries.find?
        (entry_matches (engine ( "^" ++ pat ++ "$")))).map
        (fun e => (tf, e.bytes))) ∧
    ((∀ e ∈ entries, entry_matches (engine ( "^" ++ pat ++ "$")) e = false) →
      extract_target_from_archive engine conf entries = ROutcome.ok none) := by
  have hre : make_re_target_filename conf =
      ROutcome.ok ( "^" ++ pat ++ "$") := by
    unfold make_re_target_filename
    rw [hp]
  have h2 : extract_target_from_archive engine conf entries =
      ROutcome.ok ((entries.find?
        (entry_matches (engine ( "^" ++ pat ++ "$")))).map
        (fun e => (tf, e.bytes))) := by
    simp [extract_target_from_archive, hd, hre, extract_target_loop_eq_find,
      Option.map_map, Function.comp]
    rfl
  refine ⟨hre, h2, ?_⟩
  intro hno
  rw [h2]
  have hfind : entries.find?
      (entry_matches (engine ( "^" ++ pat ++ "$"))) = none := by
    rw [List.find?_eq_none]
    intro e he
    simp [hno e he]
  rw [hfind]
  rfl

/-- Witness for C5: a two-entry archive where only the second entry's base
name matches the anchored pattern. -/
theorem C5_member_extraction_witness :
    extract_target_from_archive engineW confW5 entriesW =
      ROutcome.ok (some ( "rg", [2, 3])) := by
  have h := (C5_member_extraction engineW confW5 entriesW "rg" "rg"
    rfl rfl).2.1
  rw [h]
  decide

/-- C6: the HTML scan tests the whitespace-joined trimmed link text against
the pattern anchored at both ends and returns the first matching element's
hit, while the JSON variant tests each candidate URL with the raw
(unanchored) pattern and returns the first match paired with the version. -/
theorem C6_anchor_matching (engine : String → String → Bool)
    (rroot rrel : String → String → String) (conf : Config) (url : String)
    (vtexts : Option (List String)) (elements : List HtmlElement) :
    (parse_html_scan engine rroot rrel conf url vtexts elements =
      (match elements.find? (html_element_hit engine conf) with
       | none => none
       | some el =>
         match version_from_texts vtexts with
         | some v => some ⟨v, resolve_href rroot rrel url (el.href.getD "")⟩
         | none => none)) ∧
    (∀ (is_match : String → Bool) (version_str : String) (urls : List String),
      json_candidate_loop is_match version_str urls =
        (urls.find? is_match).map (fun u => Hit.mk version_str u)) ∧
    (∀ (jp : String → String → Except String (List (Option String)))
        (rn : String → Except String (String → Bool)) (payload : String)
        (conf2 : Config) (vtag : String) (item : Option String)
        (vrest uitems : List (Option String)) (is_match : String → Bool),
      conf2.version_tag = some vtag →
      jp payload vtag = Except.ok (item :: vrest) →
      jp payload conf2.anchor_tag = Except.ok uitems →
      rn conf2.anchor_text = Except.ok is_match →
      extract_data_from_json jp rn payload conf2 =
        ROutcome.ok (((uitems.map (fun o => o.getD "")).find? is_match).map
          (fun u => Hit.mk (item.getD "") u))) := by
  have hjson : ∀ (is_match : String → Bool) (version_str : String)
      (urls : List String),
      json_candidate_loop is_match version_str urls =
        (urls.find? is_match).map (fun u => Hit.mk version_str u) := by
    intro is_match version_str urls
    induction urls with
    | nil => rfl
    | cons u rest ih =>
      cases hm : is_match u with
      | true => simp [json_candidate_loop, List.find?, hm]
      | false => simp [json_candidate_loop, List.find?, hm, ih]
  refine ⟨?_, hjson, ?_⟩
  · induction elements with
    | nil => rfl
    | cons el rest ih =>
      cases hh : el.href with
      | none => simp [parse_html_scan, List.find?, html_element_hit, hh, ih]
      | some href =>
        cases hm : engine ( "^" ++ conf.anchor_text ++ "$")
            ((String.intercalate " " el.texts).trim) with
        | true => simp [parse_html_scan, List.find?, html_element_hit, hh, hm]
        | false =>
          simp [parse_html_scan, List.find?, html_element_hit, hh, hm, ih]
  · intro jp rn payload conf2 vtag item vrest uitems is_match hv hj1 hj2 hr
    simp [extract_data_from_json, hv, hj1, hj2, hr, hjson]

/-- Witness for C6: the JSON variant returns the first candidate matched by
the unanchored pattern, paired with the version. -/
theorem C6_anchor_matching_witness :
    extract_data_from_json jpTwo rnU2 "" confJ6 =
      ROutcome.ok (some (Hit.mk "13.0.0" "u2")) := by
  have h := (C6_anchor_matching (fun _ _ => false) (fun _ h => h)
      (fun _ h => h) Config.new "" none []).2.2 jpTwo rnU2 "" confJ6
      "$.tag_name" (some "13.0.0") [] [some "u1", some "u2"]
      (fun u => u == "u2") rfl rfl rfl rfl
  rw [h]
  decide

/-- C7 (counterexample): with the malformed version path `$bad` the JSON
extractor panics at an `unwrap` — not a returned error — and with an anchor
query that comes back empty it returns the soft no-match outcome `Ok(None)`
rather than any terminal failure. -/
theorem C7_counterexample_json_errors :
    is_err_outcome (extract_data_from_json jpBad rnTrue "" confBadPath) =
      false ∧
    extract_data_from_json jpBad rnTrue "" confBadPath =
      ROutcome.panicked
        ( "called Result::unwrap() on an Err value: path parse error") ∧
    extract_data_from_json jpNoAnchor rnTrue "" confNoAnchor =
      ROutcome.ok none := by
  refine ⟨rfl, rfl, rfl⟩

/-- C7 (amended): in the JSON variant a malformed JSON-path expression in
either selector terminates the attempt with a panic (unwrap on the parser's
result) rather than a propagated error, an absent version-query result panics
at the index, and an absent anchor-query result yields the soft no-match
outcome `Ok(None)`. -/
theorem C7_amended_json_errors
    (jp : String → String → Except String (List (Option String)))
    (rn : String → Except String (String → Bool)) (payload : String)
    (conf : Config) (vtag : String) (hv : conf.version_tag = some vtag) :
    (∀ e, jp payload vtag = Except.error e →
      extract_data_from_json jp rn payload conf =
        ROutcome.panicked ( "called Result::unwrap() on an Err value: " ++ e)) ∧
    (jp payload vtag = Except.ok [] →
      extract_data_from_json jp rn payload conf =
        ROutcome.panicked
          "index out of bounds: the len is 0 but the index is 0") ∧
    (∀ item vrest e, jp payload vtag = Except.ok (item :: vrest) →
      jp payload conf.anchor_tag = Except.error e →
      extract_data_from_json jp rn payload conf =
        ROutcome.panicked ( "called Result::unwrap() on an Err value: " ++ e)) ∧
    (∀ item vrest is_match, jp payload vtag = Except.ok (item :: vrest) →
      jp payload conf.anchor_tag = Except.ok [] →
      rn conf.anchor_text = Except.ok is_match →
      extract_data_from_json jp rn payload conf = ROutcome.ok none) := by
  refine ⟨?_, ?_, ?_, ?_⟩
  · intro e he
    simp [extract_data_from_json, hv, he]
  · intro he
    simp [extract_data_from_json, hv, he]
  · intro item vrest e h1 h2
    simp [extract_data_from_json, hv, h1, h2]
  · intro item vrest is_match h1 h2 h3
    simp [extract_data_from_json, hv, h1, h2, h3, json_candidate_loop]

/-- Witness for the amended C7 at a concrete malformed version path. -/
theorem C7_amended_json_errors_witness :
    extract_data_from_json jpBad rnTrue "abc" confBadPath =
      ROutcome.panicked
        ( "called Result::unwrap() on an Err value: path parse error") :=
  (C7_amended_json_errors jpBad rnTrue "abc" confBadPath "$bad" rfl).1
    "path parse error" rfl

/-- C8 (code bug evidence): the persistence step of `run_section` performs
its reload/set/write sequence with no lock operation whatsoever — there is no
mutual-exclusion lock in the code (the source's own comment at
src/lib.rs:222 says one is still needed). -/
theorem C8_persist_no_lock (sectionName new_version filename : String) :
    StoreOp.lock_acquire ∉
      run_section_persist_trace sectionName new_version filename ∧
    StoreOp.lock_release ∉
      run_section_persist_trace sectionName new_version filename := by
  constructor <;> simp [run_section_persist_trace]

/-- A freshly set mode is what `fsGet` reads back. -/
theorem fsGet_fsSet (fs : List (String × Nat)) (f : String) (mode : Nat) :
    fsGet (fsSet fs f mode) f = some mode := by
  simp [fsGet, fsSet, List.find?]

/-- C10: for archive extensions, `process` runs `set_executable` on
`desired_filename` even when no member matched and nothing was written, so a
member no-match with an absent target file escalates to a section-level
error from the metadata read; and whenever the pipeline does succeed with a
non-`.exe` extension, the target file ends up present with an execute bit
set. -/
theorem C10_postprocessor_escalates :
    (∀ (engine : String → String → Bool) (conf : Config) (ext : String)
        (entries : List ArchiveEntry) (fs : List (String × Nat))
        (pat tf : String),
      conf.desired_filename = some tf →
      conf.target_filename_to_extract_from_archive = some pat →
      (ext = ".tar.xz" ∨ ext = ".zip" ∨ ext = ".tar.gz") →
      (∀ e ∈ entries,
        entry_matches (engine ( "^" ++ pat ++ "$")) e = false) →
      fsGet fs tf = none →
      process_after_download engine conf ext entries fs =
        ROutcome.error ( "No such file or directory: " ++ tf)) ∧
    (∀ (engine : String → String → Bool) (conf : Config) (ext : String)
        (entries : List ArchiveEntry) (fs fs' : List (String × Nat))
        (tf : String),
      conf.desired_filename = some tf → ext ≠ ".exe" →
      process_after_download engine conf ext entries fs = ROutcome.ok fs' →
      ∃ m, fsGet fs' tf = some m ∧ Nat.land m 0o111 ≠ 0) := by
  constructor
  · intro engine conf ext entries fs pat tf hd hp hext hno hfs
    have hre : make_re_target_filename conf =
        ROutcome.ok ( "^" ++ pat ++ "$") := by
      unfold make_re_target_filename
      rw [hp]
    have hfind : entries.find?
        (entry_matches (engine ( "^" ++ pat ++ "$"))) = none := by
      rw [List.find?_eq_none]
      intro e he
      simp [hno e he]
    have harch : extract_target_from_archive engine conf entries =
        ROutcome.ok none := by
      simp [extract_target_from_archive, hd, hre, extract_target_loop_eq_find,
        hfind]
    rcases hext with rfl | rfl | rfl <;>
      simp [process_after_download, process_extract_step, harch,
        process_finalize, hd, set_executable, hfs]
  · intro engine conf ext entries fs fs' tf hd hne h
    unfold process_after_download at h
    split at h
    · exact absurd h (by simp)
    · exact absurd h (by simp)
    · rename_i fs1 hstep
      simp only [process_finalize, hd] at h
      rw [if_pos hne] at h
      cases hg : fsGet fs1 tf with
      | none => simp [set_executable, hg] at h
      | some mode =>
        by_cases hm : Nat.land mode 0o111 = 0
        · simp [set_executable, hg, hm] at h
          exact ⟨0o755, by rw [← h, fsGet_fsSet], by decide⟩
        · simp [set_executable, hg, hm] at h
          exact ⟨mode, by rw [← h]; exact hg, hm⟩

/-- Witness for C10: a no-match `.zip` extraction with no file on disk
errors; a raw extensionless write ends up executable. -/
theorem C10_postprocessor_escalates_witness :
    process_after_download (fun _ _ => false) confW5 ".zip" entriesW [] =
      ROutcome.error ( "No such file or directory: rg") ∧
    (∃ m, fsGet [( "rg", 493)] "rg" = some m ∧ Nat.land m 0o111 ≠ 0) := by
  constructor
  · exact C10_postprocessor_escalates.1 (fun _ _ => false) confW5 ".zip"
      entriesW [] "rg" "rg" rfl rfl (Or.inr (Or.inl rfl)) (by decide) rfl
  · exact C10_postprocessor_escalates.2 (fun _ _ => false) confW5 "" [] []
      [( "rg", 493)] "rg" rfl (by decide) (by decide)

end Lifter
